import Mathlib

/-!
Shallow embedding of `src/queuemsg/lib.rs` (rust-azure-table-queue).

The crate computes an Azure Storage shared-key authorization signature for a
queue "put message" request.  The embedding below translates each Rust
function into an executable Lean definition:

* the `static` configuration strings become Lean `def`s; functions that read
  them (`canonical_resource`, `construct_signature`, the body of
  `create_request`) take the corresponding strings as explicit parameters,
  which is exactly the code with the global reads made visible;
* `Vec::push` followed by `join("")` becomes `String.join` of the pushed list;
* Rust's `format!("{}", n)` on a `usize` (standard decimal rendering, no
  leading zeros) is modelled by `Nat.repr`;
* `String::len` (UTF-8 byte count) is modelled by `rustLen` via an explicit
  UTF-8 encoder;
* the `base64` crate's STANDARD engine and the `hmac`/`sha2` construction are
  modelled executably; the SHA-256 compression itself is irrelevant to every
  claim, so HMAC is parameterized by the underlying hash function while the
  HMAC key handling, the ipad/opad structure, the base64 coding and all
  control flow are explicit;
* Rust panics are modelled by the `RustOutcome.panicked` constructor, and a
  function returning `Result<T, E>` that can also panic is modelled as
  `RustOutcome (Except E T)`.
-/

namespace AzureQueue

/-- Static `STORAGE_ACCOUNT_NAME` from lib.rs line 8. -/
def STORAGE_ACCOUNT_NAME : String := "my-storage-account-name"

/-- Static `STORAGE_ACCOUNT_KEY` from lib.rs line 9. -/
def STORAGE_ACCOUNT_KEY : String := "STORAGE_ACCOUNT_KEY"

/-- Static `QUEUE_NAME` from lib.rs line 10. -/
def QUEUE_NAME : String := "queue_name"

/-- Static `X_MS_VERSION` from lib.rs line 12. -/
def X_MS_VERSION : String := "2011-08-18"

/-! ## DateFormatter (`format_date_str`, lib.rs lines 21-23)

`format_date_str` formats a `chrono::DateTime<Local>` with the format string
`"%a, %d %b %Y %H:%M:%S GMT"`.  The `DateTime<Local>` value is modelled as a
record of its calendar fields plus its UTC offset; chrono's strftime-style
formatter for this fixed format string is modelled field by field from the
chrono documentation: `%a` abbreviated weekday name, `%d` zero-padded
two-digit day, `%b` abbreviated month name, `%Y` year zero-padded to four
digits, `%H`/`%M`/`%S` zero-padded two-digit clock fields, and `GMT` is
literal text copied to the output (the offset plays no part). -/

/-- Model of `chrono::DateTime<Local>`: calendar fields plus the UTC offset
of the local timezone.  `weekday` is 0 = Sunday .. 6 = Saturday. -/
structure LocalDateTime where
  year : Nat
  month : Nat
  day : Nat
  hour : Nat
  minute : Nat
  second : Nat
  weekday : Nat
  utcOffsetMinutes : Int

/-- Modelled from chrono `%a`: abbreviated weekday name. -/
def weekdayAbbrev (w : Nat) : String :=
  match w with
  | 0 => "Sun"
  | 1 => "Mon"
  | 2 => "Tue"
  | 3 => "Wed"
  | 4 => "Thu"
  | 5 => "Fri"
  | _ => "Sat"

/-- Modelled from chrono `%b`: abbreviated month name (months 1-12). -/
def monthAbbrev (m : Nat) : String :=
  match m with
  | 1 => "Jan"
  | 2 => "Feb"
  | 3 => "Mar"
  | 4 => "Apr"
  | 5 => "May"
  | 6 => "Jun"
  | 7 => "Jul"
  | 8 => "Aug"
  | 9 => "Sep"
  | 10 => "Oct"
  | 11 => "Nov"
  | _ => "Dec"

/-- Zero-pad a number to two decimal digits (chrono `%d`, `%H`, `%M`, `%S`). -/
def pad2 (n : Nat) : String :=
  if n < 10 then "0" ++ Nat.repr n else Nat.repr n

/-- Zero-pad a number to four decimal digits (chrono `%Y` for year 0-9999). -/
def pad4 (n : Nat) : String :=
  if n < 10 then "000" ++ Nat.repr n
  else if n < 100 then "00" ++ Nat.repr n
  else if n < 1000 then "0" ++ Nat.repr n
  else Nat.repr n

/-- `format_date_str` (lib.rs lines 21-23): format the local datetime with
`"%a, %d %b %Y %H:%M:%S GMT"`.  The zone token `GMT` is a literal in the
format string, so it is emitted verbatim and the offset field is unused. -/
def format_date_str (dt : LocalDateTime) : String :=
  weekdayAbbrev dt.weekday ++ ", " ++ pad2 dt.day ++ " " ++ monthAbbrev dt.month
    ++ " " ++ pad4 dt.year ++ " " ++ pad2 dt.hour ++ ":" ++ pad2 dt.minute
    ++ ":" ++ pad2 dt.second ++ " GMT"

/-! ## Canonicalizer (`canonical_headers` lines 31-36, `canonical_resource` lines 41-49) -/

/-- `canonical_headers` (lib.rs lines 31-36):
`format!("x-ms-date:{}\nx-ms-version:{}", date_time, X_MS_VERSION)`. -/
def canonical_headers (date_time : String) : String :=
  "x-ms-date:" ++ date_time ++ "\nx-ms-version:" ++ X_MS_VERSION

/-- `canonical_resource` (lib.rs lines 41-49): pushes `"/"`, the account
name, `"/"`, the queue name and `"/messages"` into a vector and joins them.
The two strings are read from the statics `STORAGE_ACCOUNT_NAME` and
`QUEUE_NAME`; they appear here as the explicit parameters `account` and
`queue`. -/
def canonical_resource (account queue : String) : String :=
  String.join ["/", account, "/", queue, "/messages"]

/-! ## SignatureBuilder (`construct_signature`, lib.rs lines 70-108) -/

/-- The Content-Length field of the string-to-sign without its terminating
newline: lib.rs lines 79-82 push `"\n"` for `0` and `format!("{}\n", n)`
otherwise, so the field itself is empty for `0` and the decimal rendering of
`n` otherwise. -/
def contentLengthField (content_length : Nat) : String :=
  match content_length with
  | 0 => ""
  | _ => Nat.repr content_length

/-- The string pushed for the Content-Length line (lib.rs lines 79-82). -/
def contentLengthLine (content_length : Nat) : String :=
  match content_length with
  | 0 => "\n"
  | _ => Nat.repr content_length ++ "\n"

/-- `construct_signature` (lib.rs lines 70-108): pushes the verb line, the
eleven header-value lines (only Content-Length ever non-empty), the
canonicalized headers, a newline, and the canonicalized resource, then joins
everything with the empty separator.  `account` and `queue` are the statics
read by `canonical_resource`, made explicit. -/
def construct_signature (content_length : Nat) (date_time account queue : String) :
    String :=
  String.join
    [ "POST\n",
      "\n",
      "\n",
      contentLengthLine content_length,
      "\n",
      "\n",
      "\n",
      "\n",
      "\n",
      "\n",
      "\n",
      "\n",
      canonical_headers date_time,
      "\n",
      canonical_resource account queue ]

/-! ## MessageEncoder (`create_content_string`, lib.rs lines 113-119) -/

/-- `create_content_string` (lib.rs lines 113-119): pushes
`"<QueueMessage>\n"`, `format!("<MessageText>{}</MessageText>\n", contents)`
and `"</QueueMessage>"`, then joins them.  The payload is inserted verbatim,
with no XML escaping. -/
def create_content_string (contents : String) : String :=
  String.join
    [ "<QueueMessage>\n",
      "<MessageText>" ++ contents ++ "</MessageText>\n",
      "</QueueMessage>" ]

/-! ## Bytes: UTF-8 and Rust `String::len` -/

/-- Modelled from Rust `String` semantics: the UTF-8 encoding of one
character (1-4 bytes, each a `Nat` below 256). -/
def utf8EncodeChar (c : Char) : List Nat :=
  let n := c.toNat
  if n < 128 then [n]
  else if n < 2048 then [192 + n / 64, 128 + n % 64]
  else if n < 65536 then [224 + n / 4096, 128 + (n / 64) % 64, 128 + n % 64]
  else [240 + n / 262144, 128 + (n / 4096) % 64, 128 + (n / 64) % 64, 128 + n % 64]

/-- Modelled from Rust `str::as_bytes`: the UTF-8 bytes of a string. -/
def utf8Bytes (s : String) : List Nat :=
  (s.data.map utf8EncodeChar).flatten

/-- Modelled from Rust `String::len`: the UTF-8 byte length. -/
def rustLen (s : String) : Nat :=
  (utf8Bytes s).length

/-! ## base64 (modelled from the `base64` crate, `general_purpose::STANDARD`)

The STANDARD engine uses the alphabet `A-Z a-z 0-9 + /` with `=` padding.
Decoding rejects any character outside the alphabet, a length that is not a
multiple of four, misplaced padding, and non-canonical trailing bits. -/

/-- Index of a character in the STANDARD base64 alphabet, `none` when the
character is not in the alphabet. -/
def b64Index (c : Char) : Option Nat :=
  if 'A' ≤ c ∧ c ≤ 'Z' then some (c.toNat - 65)
  else if 'a' ≤ c ∧ c ≤ 'z' then some (c.toNat - 97 + 26)
  else if '0' ≤ c ∧ c ≤ '9' then some (c.toNat - 48 + 52)
  else if c = '+' then some 62
  else if c = '/' then some 63
  else none

/-- Decode a base64 character stream four characters at a time. -/
def b64DecodeGroups : List Char → Option (List Nat)
  | [] => some []
  | a :: b :: c :: d :: rest =>
    match b64Index a, b64Index b with
    | some i1, some i2 =>
      if c = '=' then
        if d = '=' ∧ rest = [] ∧ i2 % 16 = 0 then
          some [i1 * 4 + i2 / 16]
        else none
      else
        match b64Index c with
        | some i3 =>
          if d = '=' then
            if rest = [] ∧ i3 % 4 = 0 then
              some [i1 * 4 + i2 / 16, (i2 % 16) * 16 + i3 / 4]
            else none
          else
            match b64Index d with
            | some i4 =>
              match b64DecodeGroups rest with
              | some bs =>
                some ([i1 * 4 + i2 / 16, (i2 % 16) * 16 + i3 / 4,
                       (i3 % 4) * 64 + i4] ++ bs)
              | none => none
            | none => none
        | none => none
    | _, _ => none
  | _ => none

/-- Modelled from `general_purpose::STANDARD.decode`. -/
def b64decode (s : String) : Option (List Nat) :=
  b64DecodeGroups s.data

/-- Character of a 6-bit value in the STANDARD base64 alphabet. -/
def b64Char (i : Nat) : Char :=
  if i < 26 then Char.ofNat (65 + i)
  else if i < 52 then Char.ofNat (97 + (i - 26))
  else if i < 62 then Char.ofNat (48 + (i - 52))
  else if i = 62 then '+'
  else '/'

/-- Encode a byte stream three bytes at a time, padding the final group. -/
def b64EncodeGroups : List Nat → List Char
  | [] => []
  | [a] => [b64Char (a / 4), b64Char ((a % 4) * 16), '=', '=']
  | [a, b] => [b64Char (a / 4), b64Char ((a % 4) * 16 + b / 16),
               b64Char ((b % 16) * 4), '=']
  | a :: b :: c :: rest =>
    [b64Char (a / 4), b64Char ((a % 4) * 16 + b / 16),
     b64Char ((b % 16) * 4 + c / 64), b64Char (c % 64)]
      ++ b64EncodeGroups rest

/-- Modelled from `general_purpose::STANDARD.encode`. -/
def b64encode (bytes : List Nat) : String :=
  String.mk (b64EncodeGroups bytes)

/-! ## Signer (`hmac_256`, lib.rs lines 125-148) -/

/-- Model of `std::fmt::Error`, the error type `hmac_256` declares (and never
returns). -/
structure FmtError where
deriving DecidableEq

/-- Outcome of running a piece of Rust code that may panic: either a normal
return value or a panic with its message. -/
inductive RustOutcome (α : Type) where
  | ok : α → RustOutcome α
  | panicked : String → RustOutcome α
deriving DecidableEq

/-- Modelled from the `hmac` crate: `Hmac::<Sha256>::new_from_slice` accepts
keys of any length (long keys are first hashed inside the primitive), so it
never returns `InvalidLength`; the `Option` records the error channel the
code matches on. -/
def hmac_new_from_slice (key : List Nat) : Option (List Nat) :=
  some key

/-- Modelled from the `hmac` crate (RFC 2104): pad or hash the key to the
64-byte SHA-256 block, then `hash ((k xor opad) ++ hash ((k xor ipad) ++ msg))`.
The compression function `hash` is a parameter: no claim constrains the
SHA-256 internals, only the wiring around them. -/
def hmacSha256 (hash : List Nat → List Nat) (key msg : List Nat) : List Nat :=
  let k0 := if 64 < key.length then hash key else key
  let k := k0 ++ List.replicate (64 - k0.length) 0
  hash ((k.map (fun b => b ^^^ 92)) ++ hash ((k.map (fun b => b ^^^ 54)) ++ msg))

/-- `hmac_256` (lib.rs lines 125-148): base64-decode the secret, initialize
the HMAC, feed the data bytes, finalize and base64-encode the digest.  Both
error branches panic (lines 140 and 145) instead of returning through the
declared `Result<String, Error>`. -/
def hmac_256 (hash : List Nat → List Nat) (data secret : String) :
    RustOutcome (Except FmtError String) :=
  match b64decode secret with
  | some decoded =>
    match hmac_new_from_slice decoded with
    | some key =>
      RustOutcome.ok (Except.ok (b64encode (hmacSha256 hash key (utf8Bytes data))))
    | none => RustOutcome.panicked "Couldn't Create hmac instance"
  | none => RustOutcome.panicked "Couldn't Decode account key to base64"

/-- Panic message of `Result::unwrap` on an `Err` value (lib.rs line 164). -/
def unwrapErrMsg : String := "called Result::unwrap() on an Err value"

/-- The authorization-header computation of `create_request` (lib.rs lines
151-166): build the body, build the string-to-sign from the body's byte
length and the timestamp, sign it, unwrap, and format
`"SharedKey {account}:{signature}"`.  `dt` is the formatted timestamp
computed on line 158; `account`, `queue` and `key` are the statics, made
explicit.  The network dispatch that follows is outside the model. -/
def create_auth_header (hash : List Nat → List Nat)
    (message_text dt account queue key : String) : RustOutcome String :=
  let body_content := create_content_string message_text
  let auth_str := construct_signature (rustLen body_content) dt account queue
  match hmac_256 hash auth_str key with
  | RustOutcome.ok (Except.ok encoded_auth) =>
    RustOutcome.ok ("SharedKey " ++ account ++ ":" ++ encoded_auth)
  | RustOutcome.ok (Except.error _) => RustOutcome.panicked unwrapErrMsg
  | RustOutcome.panicked msg => RustOutcome.panicked msg

/-! ## Specification-side views used by the claims -/

/-- Field view of a string: split its character list at newline characters.
`splitNl l` always has one more element than `l` has newlines. -/
def splitNl : List Char → List (List Char)
  | [] => [[]]
  | c :: rest =>
    if c = '\n' then [] :: splitNl rest
    else
      match splitNl rest with
      | [] => [[c]]
      | f :: fs => (c :: f) :: fs

/-- Reference decimal digit list of a natural number, most significant digit
first (used to relate `Nat.repr` to the arithmetic value). -/
def digitsOf (n : Nat) : List Char :=
  if n < 10 then [Nat.digitChar n]
  else digitsOf (n / 10) ++ [Nat.digitChar (n % 10)]
termination_by n
decreasing_by exact Nat.div_lt_self (by omega) (by omega)

/-- Numeric value of a digit-character list read in base 10. -/
def charsVal (l : List Char) : Nat :=
  l.foldl (fun a c => 10 * a + (c.toNat - 48)) 0

/-- `s` is the exact decimal representation of `n` with no leading zeros:
every character is a decimal digit, the first character is not `'0'`, and
reading the characters in base 10 gives back `n`. -/
def isDecimalRepOf (s : String) (n : Nat) : Prop :=
  (∀ c ∈ s.data, c.isDigit = true) ∧ s.data.head? ≠ some '0' ∧ charsVal s.data = n

/-- Checks the shape `Day, DD Mon YYYY HH:MM:SS GMT`: three letters, a comma
and a space, two digits, a space, three letters, a space, four digits, a
space, `HH:MM:SS` in digits and colons, a space, and the literal `GMT`. -/
def isRfc1123GMT (s : String) : Bool :=
  match s.data with
  | [a1, a2, a3, k1, s1, d1, d2, s2, b1, b2, b3, s3, y1, y2, y3, y4, s4,
     h1, h2, c1, m1, m2, c2, x1, x2, s5, z1, z2, z3] =>
    a1.isAlpha && a2.isAlpha && a3.isAlpha && (k1 == ',') && (s1 == ' ')
      && d1.isDigit && d2.isDigit && (s2 == ' ')
      && b1.isAlpha && b2.isAlpha && b3.isAlpha && (s3 == ' ')
      && y1.isDigit && y2.isDigit && y3.isDigit && y4.isDigit && (s4 == ' ')
      && h1.isDigit && h2.isDigit && (c1 == ':')
      && m1.isDigit && m2.isDigit && (c2 == ':')
      && x1.isDigit && x2.isDigit && (s5 == ' ')
      && (z1 == 'G') && (z2 == 'M') && (z3 == 'T')
  | _ => false

/-! ## Helper lemmas: the field view `splitNl` -/

theorem splitNl_newline_cons (rest : List Char) :
    splitNl ('\n' :: rest) = [] :: splitNl rest := by
  simp [splitNl]

theorem splitNl_append_newline (xs rest : List Char) (h : ∀ c ∈ xs, c ≠ '\n') :
    splitNl (xs ++ '\n' :: rest) = xs :: splitNl rest := by
  induction xs with
  | nil => simp [splitNl]
  | cons x xs ih =>
    have hx : ¬ x = '\n' := h x (List.mem_cons_self x xs)
    have ih2 := ih (fun c hc => h c (List.mem_cons_of_mem x hc))
    show splitNl (x :: (xs ++ '\n' :: rest)) = (x :: xs) :: splitNl rest
    rw [splitNl, if_neg hx, ih2]

/-! ## Helper lemmas: `Nat.repr` and decimal digits -/

theorem digitsOf_lt (n : Nat) (h : n < 10) : digitsOf n = [Nat.digitChar n] := by
  rw [digitsOf, if_pos h]

theorem digitsOf_ge (n : Nat) (h : 10 ≤ n) :
    digitsOf n = digitsOf (n / 10) ++ [Nat.digitChar (n % 10)] := by
  rw [digitsOf, if_neg (Nat.not_lt.2 h)]

theorem toDigitsCore_eq_digitsOf :
    ∀ (fuel n : Nat) (ds : List Char), n < 10 ^ (fuel + 1) →
      Nat.toDigitsCore 10 (fuel + 1) n ds = digitsOf n ++ ds := by
  intro fuel
  induction fuel with
  | zero =>
    intro n ds h
    have h10 : n < 10 := by simpa using h
    have hdiv : n / 10 = 0 := Nat.div_eq_of_lt h10
    simp [Nat.toDigitsCore, hdiv, digitsOf_lt n h10, Nat.mod_eq_of_lt h10]
  | succ fuel ih =>
    intro n ds h
    by_cases h10 : n < 10
    · have hdiv : n / 10 = 0 := Nat.div_eq_of_lt h10
      simp [Nat.toDigitsCore, hdiv, digitsOf_lt n h10, Nat.mod_eq_of_lt h10]
    · have h10' : 10 ≤ n := Nat.not_lt.1 h10
      have hdiv : ¬ n / 10 = 0 := by
        intro hc
        exact h10 ((Nat.div_eq_zero_iff (by omega)).1 hc)
      have hlt : n / 10 < 10 ^ (fuel + 1) := by
        rw [Nat.div_lt_iff_lt_mul (by omega)]
        calc n < 10 ^ (fuel + 1 + 1) := h
          _ = 10 ^ (fuel + 1) * 10 := by ring
      rw [Nat.toDigitsCore, if_neg hdiv, ih (n / 10) _ hlt,
        digitsOf_ge n h10']
      simp

theorem repr_data (n : Nat) : (Nat.repr n).data = digitsOf n := by
  have h1 : n < 10 ^ n := Nat.lt_pow_self (by omega) n
  have h : n < 10 ^ (n + 1) :=
    lt_of_lt_of_le h1 (Nat.pow_le_pow_right (by omega) (Nat.le_succ n))
  show (Nat.toDigits 10 n).asString.data = digitsOf n
  rw [Nat.toDigits, toDigitsCore_eq_digitsOf n n [] h]
  simp [List.asString]

theorem digitChar_isDigit : ∀ d, d < 10 → (Nat.digitChar d).isDigit = true := by
  decide

theorem digitChar_ne_zero : ∀ d, d < 10 → 0 < d → Nat.digitChar d ≠ '0' := by
  decide

theorem digitChar_val : ∀ d, d < 10 → (Nat.digitChar d).toNat - 48 = d := by
  decide

theorem digitsOf_digits (n : Nat) : ∀ c ∈ digitsOf n, c.isDigit = true := by
  induction n using Nat.strong_induction_on with
  | _ n ih =>
    by_cases h : n < 10
    · rw [digitsOf_lt n h]
      intro c hc
      rw [List.mem_singleton.1 hc]
      exact digitChar_isDigit n h
    · rw [digitsOf_ge n (Nat.not_lt.1 h)]
      intro c hc
      rcases List.mem_append.1 hc with h1 | h2
      · exact ih (n / 10) (Nat.div_lt_self (by omega) (by omega)) c h1
      · rw [List.mem_singleton.1 h2]
        exact digitChar_isDigit _ (Nat.mod_lt _ (by omega))

theorem digitsOf_ne_nil (n : Nat) : digitsOf n ≠ [] := by
  by_cases h : n < 10
  · rw [digitsOf_lt n h]; simp
  · rw [digitsOf_ge n (Nat.not_lt.1 h)]; simp

theorem digitsOf_head_ne_zero (n : Nat) (h : 0 < n) :
    (digitsOf n).head? ≠ some '0' := by
  induction n using Nat.strong_induction_on with
  | _ n ih =>
    by_cases h10 : n < 10
    · rw [digitsOf_lt n h10]
      intro hc
      exact digitChar_ne_zero n h10 h (by simpa using hc)
    · have h10' : 10 ≤ n := Nat.not_lt.1 h10
      rw [digitsOf_ge n h10']
      have hpos : 0 < n / 10 := Nat.div_pos h10' (by omega)
      have ihh := ih (n / 10) (Nat.div_lt_self (by omega) (by omega)) hpos
      cases hA : digitsOf (n / 10) with
      | nil => exact absurd hA (digitsOf_ne_nil _)
      | cons x xs =>
        rw [hA] at ihh
        simpa using ihh

theorem charsVal_digitsOf (n : Nat) : charsVal (digitsOf n) = n := by
  induction n using Nat.strong_induction_on with
  | _ n ih =>
    by_cases h : n < 10
    · rw [digitsOf_lt n h]
      show 10 * 0 + ((Nat.digitChar n).toNat - 48) = n
      rw [digitChar_val n h]
      omega
    · have h10 : 10 ≤ n := Nat.not_lt.1 h
      rw [digitsOf_ge n h10, charsVal, List.foldl_append]
      have ihh := ih (n / 10) (Nat.div_lt_self (by omega) (by omega))
      rw [charsVal] at ihh
      rw [ihh]
      show 10 * (n / 10) + ((Nat.digitChar (n % 10)).toNat - 48) = n
      rw [digitChar_val (n % 10) (Nat.mod_lt _ (by omega))]
      omega

theorem repr_isDecimalRepOf (n : Nat) (h : 0 < n) :
    isDecimalRepOf (Nat.repr n) n := by
  refine ⟨?_, ?_, ?_⟩
  · rw [repr_data]; exact digitsOf_digits n
  · rw [repr_data]; exact digitsOf_head_ne_zero n h
  · rw [repr_data]; exact charsVal_digitsOf n

theorem repr_no_newline (n : Nat) : ∀ c ∈ (Nat.repr n).data, c ≠ '\n' := by
  intro c hc he
  have hd := digitsOf_digits n c (by rw [← repr_data]; exact hc)
  rw [he] at hd
  exact absurd hd (by decide)

/-! ## Helper lemmas: string normal forms -/

theorem contentLengthLine_eq (n : Nat) :
    contentLengthLine n = contentLengthField n ++ "\n" := by
  cases n with
  | zero => rfl
  | succ m => rfl

theorem contentLengthField_no_newline (n : Nat) :
    ∀ c ∈ (contentLengthField n).data, c ≠ '\n' := by
  cases n with
  | zero => intro c hc; exact absurd hc (by simp [contentLengthField])
  | succ m => exact repr_no_newline (m + 1)

theorem canonical_resource_data (account queue : String) :
    (canonical_resource account queue).data =
      '/' :: (account.data ++ '/' :: (queue.data ++ "/messages".data)) := by
  simp only [canonical_resource, String.join, List.foldl_cons, List.foldl_nil,
    String.empty_append, String.data_append]
  simp [show ("/" : String).data = ['/'] from rfl]

theorem construct_signature_data (n : Nat) (ts account queue : String) :
    (construct_signature n ts account queue).data =
      'P' :: 'O' :: 'S' :: 'T' :: '\n' :: '\n' :: '\n' ::
        ((contentLengthField n).data ++
          '\n' :: '\n' :: '\n' :: '\n' :: '\n' :: '\n' :: '\n' :: '\n' :: '\n' ::
            ((canonical_headers ts).data ++
              '\n' :: (canonical_resource account queue).data)) := by
  simp only [construct_signature, String.join, List.foldl_cons, List.foldl_nil,
    String.empty_append, contentLengthLine_eq, String.data_append]
  simp [show ("POST\n" : String).data = ['P', 'O', 'S', 'T', '\n'] from rfl,
    show ("\n" : String).data = ['\n'] from rfl]

theorem getLast?_cons_s (c : Char) (l : List Char) (h : l.getLast? = some 's') :
    (c :: l).getLast? = some 's' := by
  cases l with
  | nil => simp at h
  | cons x xs => rw [List.getLast?_cons_cons]; exact h

theorem getLast?_append_s (l1 l2 : List Char) (h : l2.getLast? = some 's') :
    (l1 ++ l2).getLast? = some 's' := by
  rw [List.getLast?_append, h]
  rfl

theorem canonical_resource_last (account queue : String) :
    (canonical_resource account queue).data.getLast? = some 's' := by
  rw [canonical_resource_data]
  apply getLast?_cons_s
  apply getLast?_append_s
  apply getLast?_cons_s
  apply getLast?_append_s
  rfl

theorem splitNl_sig_shape (fld rest : List Char) (hf : ∀ c ∈ fld, c ≠ '\n') :
    splitNl ('P' :: 'O' :: 'S' :: 'T' :: '\n' :: '\n' :: '\n' ::
        (fld ++ '\n' :: rest)) =
      ['P', 'O', 'S', 'T'] :: [] :: [] :: fld :: splitNl rest := by
  show splitNl (['P', 'O', 'S', 'T'] ++ '\n' :: ('\n' :: '\n' :: (fld ++ '\n' :: rest)))
    = _
  rw [splitNl_append_newline ['P', 'O', 'S', 'T'] _ (by decide),
    splitNl_newline_cons, splitNl_newline_cons,
    splitNl_append_newline fld rest hf]

/-! ## Claims -/

/-- C1: For every content_length, the Content-Length field (4th field) of the
string-to-sign built by `construct_signature` is the empty string when
content_length = 0, and is the exact decimal representation of content_length
(all digits, no leading zero, reading back to the same number) when
content_length > 0. -/
theorem C1_content_length_field (n : Nat) (ts account queue : String) :
    (splitNl (construct_signature n ts account queue).data).get? 3
      = some ((contentLengthField n).data)
    ∧ contentLengthField 0 = ""
    ∧ (0 < n → isDecimalRepOf (contentLengthField n) n) := by
  refine ⟨?_, rfl, ?_⟩
  · rw [construct_signature_data,
      splitNl_sig_shape _ _ (contentLengthField_no_newline n)]
    rfl
  · intro h
    cases n with
    | zero => omega
    | succ m => exact repr_isDecimalRepOf (m + 1) h

theorem C1_content_length_field_witness :
    (splitNl (construct_signature 5 "Mon, 02 Jan 2023 03:04:05 GMT" "acct" "q1").data).get? 3
        = some ((contentLengthField 5).data)
    ∧ isDecimalRepOf (contentLengthField 5) 5 :=
  ⟨(C1_content_length_field 5 "Mon, 02 Jan 2023 03:04:05 GMT" "acct" "q1").1,
   (C1_content_length_field 5 "Mon, 02 Jan 2023 03:04:05 GMT" "acct" "q1").2.2
     (by decide)⟩

/-- C2: For every content_length and timestamp, the string-to-sign is exactly
the twelve newline-terminated segments (the verb, then eleven header-value
fields) followed by the canonicalized-headers string, one newline, and the
canonicalized-resource string, which ends the string with no trailing
newline (its last character is the letter s of `/messages`). -/
theorem C2_string_to_sign_structure (n : Nat) (ts account queue : String) :
    construct_signature n ts account queue =
      String.join (List.map (fun f => f ++ "\n")
        ["POST", "", "", contentLengthField n, "", "", "", "", "", "", "", ""])
        ++ canonical_headers ts ++ "\n" ++ canonical_resource account queue
    ∧ (construct_signature n ts account queue).data.getLast? = some 's' := by
  constructor
  · simp only [construct_signature, String.join, List.map_cons, List.map_nil,
      List.foldl_cons, List.foldl_nil, String.empty_append, contentLengthLine_eq,
      String.append_assoc,
      show ("POST\n" : String) = "POST" ++ "\n" from rfl]
  · rw [construct_signature_data]
    repeat' first
      | exact canonical_resource_last account queue
      | apply getLast?_cons_s
      | apply getLast?_append_s

/-- C3 (counterexample): the encoded envelope for payload "hi" has byte
length 60, not 29 as the scenario asserts. -/
theorem C3_envelope_length_counterexample :
    rustLen (create_content_string "hi") = 60
    ∧ rustLen (create_content_string "hi") ≠ 29 := by
  constructor
  · decide
  · decide

/-- C3 (amended): for account "acct", queue "q1", version "2011-08-18",
timestamp "Mon, 02 Jan 2023 03:04:05 GMT" and content_length 29 (which is
not the byte length of the encoded envelope for payload "hi"; that length is
60), the string-to-sign equals the fixed twelve-field concatenation ending
in the x-ms-date line, the x-ms-version line and `/acct/q1/messages`. -/
theorem C3_string_to_sign_scenario :
    construct_signature 29 "Mon, 02 Jan 2023 03:04:05 GMT" "acct" "q1" =
      "POST\n\n\n29\n\n\n\n\n\n\n\n\nx-ms-date:Mon, 02 Jan 2023 03:04:05 GMT\nx-ms-version:2011-08-18\n/acct/q1/messages" := by
  decide

/-- C4: canonical_headers ts always equals
`"x-ms-date:" ++ ts ++ "\n" ++ "x-ms-version:" ++ X_MS_VERSION`, with no
escaping, no reordering and no trailing newline. -/
theorem C4_canonical_headers (ts : String) :
    canonical_headers ts =
      "x-ms-date:" ++ ts ++ "\n" ++ "x-ms-version:" ++ X_MS_VERSION := by
  simp only [canonical_headers, String.append_assoc,
    show ("\nx-ms-version:" : String) = "\n" ++ "x-ms-version:" from rfl]

/-- C5: canonical_resource always equals
`"/" ++ account ++ "/" ++ queue ++ "/messages"`; the `/messages` suffix is
always present and the string ends in the letter s, not a slash. -/
theorem C5_canonical_resource (account queue : String) :
    canonical_resource account queue
      = "/" ++ account ++ "/" ++ queue ++ "/messages"
    ∧ (canonical_resource account queue).data.getLast? = some 's' := by
  constructor
  · simp only [canonical_resource, String.join, List.foldl_cons, List.foldl_nil,
      String.empty_append, String.append_assoc]
  · exact canonical_resource_last account queue

/-- C9: the queue message envelope wraps the payload verbatim, with no XML
escaping: `encode p` is always
`"<QueueMessage>\n<MessageText>" ++ p ++ "</MessageText>\n</QueueMessage>"`,
and in particular `encode "hello"` is the literal envelope for "hello". -/
theorem C9_message_envelope (p : String) :
    create_content_string p =
      "<QueueMessage>\n<MessageText>" ++ p ++ "</MessageText>\n</QueueMessage>"
    ∧ create_content_string "hello" =
      "<QueueMessage>\n<MessageText>hello</MessageText>\n</QueueMessage>" := by
  constructor
  · simp only [create_content_string, String.join, List.foldl_cons, List.foldl_nil,
      String.empty_append, String.append_assoc,
      show ("<QueueMessage>\n<MessageText>" : String)
          = "<QueueMessage>\n" ++ "<MessageText>" from rfl,
      show ("</MessageText>\n</QueueMessage>" : String)
          = "</MessageText>\n" ++ "</QueueMessage>" from rfl]
  · rfl

/-- C7 (counterexample): signing with the non-base64 key "not-base64!!" does
not surface a returned error value: the code panics with its decode message,
so the outcome is a process abort, not `Err`. -/
theorem C7_sign_panics_counterexample :
    hmac_256 (fun bs => bs) "s" "not-base64!!"
        = RustOutcome.panicked "Couldn't Decode account key to base64"
    ∧ hmac_256 (fun bs => bs) "s" "not-base64!!"
        ≠ RustOutcome.ok (Except.error FmtError.mk) := by
  constructor
  · rfl
  · intro hc
    have h1 : hmac_256 (fun bs => bs) "s" "not-base64!!"
        = RustOutcome.panicked "Couldn't Decode account key to base64" := rfl
    rw [h1] at hc
    exact RustOutcome.noConfusion hc

/-- C7 (amended): for every string s and every key k that is not valid
base64, sign(s, k) aborts the process via the panic
"Couldn't Decode account key to base64" and never returns a value (neither a
token nor an error value) to the caller; in particular this happens for the
key "not-base64!!". -/
theorem C7_sign_panics_on_bad_key (hash : List Nat → List Nat) (s k : String)
    (hk : b64decode k = none) :
    hmac_256 hash s k
        = RustOutcome.panicked "Couldn't Decode account key to base64"
    ∧ ∀ r, hmac_256 hash s k ≠ RustOutcome.ok r := by
  constructor
  · simp [hmac_256, hk]
  · intro r hc
    simp [hmac_256, hk] at hc

theorem C7_sign_panics_on_bad_key_witness :
    b64decode "not-base64!!" = none
    ∧ hmac_256 (fun bs => bs) "data" "not-base64!!"
        = RustOutcome.panicked "Couldn't Decode account key to base64" :=
  ⟨rfl, (C7_sign_panics_on_bad_key (fun bs => bs) "data" "not-base64!!" rfl).1⟩

/-- C8: whenever signing succeeds, the authorization token is
`"SharedKey " ++ account ++ ":" ++ base64(HMAC(decoded key, bytes of the
string-to-sign))`, where the string-to-sign is built from the byte length of
the encoded envelope and the timestamp. -/
theorem C8_authorization_token (hash : List Nat → List Nat)
    (m dt account queue key h : String) (decoded : List Nat)
    (hdec : b64decode key = some decoded)
    (hok : create_auth_header hash m dt account queue key = RustOutcome.ok h) :
    h = "SharedKey " ++ account ++ ":" ++
      b64encode (hmacSha256 hash decoded
        (utf8Bytes (construct_signature (rustLen (create_content_string m))
          dt account queue))) := by
  simp only [create_auth_header, hmac_256, hdec, hmac_new_from_slice,
    RustOutcome.ok.injEq] at hok
  exact hok.symm

theorem C8_authorization_token_witness :
    "SharedKey acct:" = "SharedKey " ++ "acct" ++ ":" ++
      b64encode (hmacSha256 (fun bs => []) [115, 101, 99, 114, 101, 116]
        (utf8Bytes (construct_signature (rustLen (create_content_string "hi"))
          "Mon, 02 Jan 2023 03:04:05 GMT" "acct" "q1"))) :=
  C8_authorization_token (fun bs => []) "hi" "Mon, 02 Jan 2023 03:04:05 GMT"
    "acct" "q1" "c2VjcmV0" "SharedKey acct:" [115, 101, 99, 114, 101, 116]
    rfl rfl

/-- C10: the Err branch of hmac_256's declared result type is unreachable:
no input makes it return `Ok (Err e)`; a key that fails base64 decoding makes
it panic with the decode message instead of returning an error value; and
consequently the caller's unwrap in create_request never panics itself. -/
theorem C10_err_branch_unreachable :
    (∀ (hash : List Nat → List Nat) (d s : String) (e : FmtError),
        hmac_256 hash d s ≠ RustOutcome.ok (Except.error e))
    ∧ (∀ (hash : List Nat → List Nat) (d s : String), b64decode s = none →
        hmac_256 hash d s
          = RustOutcome.panicked "Couldn't Decode account key to base64")
    ∧ (∀ (hash : List Nat → List Nat) (m dt account queue key : String),
        create_auth_header hash m dt account queue key
          ≠ RustOutcome.panicked unwrapErrMsg) := by
  refine ⟨?_, ?_, ?_⟩
  · intro hash d s e hc
    cases hb : b64decode s with
    | some decoded => simp [hmac_256, hb, hmac_new_from_slice] at hc
    | none => simp [hmac_256, hb] at hc
  · intro hash d s hb
    simp [hmac_256, hb]
  · intro hash m dt account queue key hc
    cases hb : b64decode key with
    | some decoded =>
      simp [create_auth_header, hmac_256, hb, hmac_new_from_slice] at hc
    | none =>
      simp only [create_auth_header, hmac_256, hb] at hc
      exact absurd (RustOutcome.panicked.inj hc) (by decide)

theorem C10_err_branch_unreachable_witness :
    b64decode "!" = none
    ∧ hmac_256 (fun bs => bs) "dd" "!"
        = RustOutcome.panicked "Couldn't Decode account key to base64" :=
  ⟨rfl, C10_err_branch_unreachable.2.1 (fun bs => bs) "dd" "!" rfl⟩

/-! ## Helper lemmas: shapes of the formatted date components -/

theorem digitsOf_two (n : Nat) (h1 : 10 ≤ n) (h2 : n < 100) :
    digitsOf n = [Nat.digitChar (n / 10), Nat.digitChar (n % 10)] := by
  rw [digitsOf_ge n h1, digitsOf_lt (n / 10) (by omega)]
  rfl

theorem digitsOf_three (n : Nat) (h1 : 100 ≤ n) (h2 : n < 1000) :
    digitsOf n = [Nat.digitChar (n / 100), Nat.digitChar (n / 10 % 10),
      Nat.digitChar (n % 10)] := by
  have e : n / 10 / 10 = n / 100 := by omega
  rw [digitsOf_ge n (by omega), digitsOf_two (n / 10) (by omega) (by omega), e]
  rfl

theorem digitsOf_four (n : Nat) (h1 : 1000 ≤ n) (h2 : n < 10000) :
    digitsOf n = [Nat.digitChar (n / 1000), Nat.digitChar (n / 100 % 10),
      Nat.digitChar (n / 10 % 10), Nat.digitChar (n % 10)] := by
  have e1 : n / 10 / 100 = n / 1000 := by omega
  have e2 : n / 10 / 10 % 10 = n / 100 % 10 := by omega
  rw [digitsOf_ge n (by omega), digitsOf_three (n / 10) (by omega) (by omega),
    e1, e2]
  rfl

theorem pad2_shape (n : Nat) (h : n < 100) :
    ∃ d1 d2, (pad2 n).data = [d1, d2]
      ∧ d1.isDigit = true ∧ d2.isDigit = true := by
  by_cases h10 : n < 10
  · refine ⟨'0', Nat.digitChar n, ?_, by decide, digitChar_isDigit n h10⟩
    rw [pad2, if_pos h10, String.data_append, repr_data, digitsOf_lt n h10]
    rfl
  · refine ⟨Nat.digitChar (n / 10), Nat.digitChar (n % 10), ?_,
      digitChar_isDigit _ (by omega), digitChar_isDigit _ (by omega)⟩
    rw [pad2, if_neg h10, repr_data, digitsOf_two n (by omega) h]

theorem pad4_shape (n : Nat) (h : n < 10000) :
    ∃ d1 d2 d3 d4, (pad4 n).data = [d1, d2, d3, d4] ∧ d1.isDigit = true
      ∧ d2.isDigit = true ∧ d3.isDigit = true ∧ d4.isDigit = true := by
  by_cases ha : n < 10
  · refine ⟨'0', '0', '0', Nat.digitChar n, ?_, by decide, by decide, by decide,
      digitChar_isDigit n ha⟩
    rw [pad4, if_pos ha, String.data_append, repr_data, digitsOf_lt n ha]
    rfl
  · by_cases hb : n < 100
    · refine ⟨'0', '0', Nat.digitChar (n / 10), Nat.digitChar (n % 10), ?_,
        by decide, by decide, digitChar_isDigit _ (by omega),
        digitChar_isDigit _ (by omega)⟩
      rw [pad4, if_neg ha, if_pos hb, String.data_append, repr_data,
        digitsOf_two n (by omega) hb]
      rfl
    · by_cases hc : n < 1000
      · refine ⟨'0', Nat.digitChar (n / 100), Nat.digitChar (n / 10 % 10),
          Nat.digitChar (n % 10), ?_, by decide, digitChar_isDigit _ (by omega),
          digitChar_isDigit _ (by omega), digitChar_isDigit _ (by omega)⟩
        rw [pad4, if_neg ha, if_neg hb, if_pos hc, String.data_append, repr_data,
          digitsOf_three n (by omega) hc]
        rfl
      · refine ⟨Nat.digitChar (n / 1000), Nat.digitChar (n / 100 % 10),
          Nat.digitChar (n / 10 % 10), Nat.digitChar (n % 10), ?_,
          digitChar_isDigit _ (by omega), digitChar_isDigit _ (by omega),
          digitChar_isDigit _ (by omega), digitChar_isDigit _ (by omega)⟩
        rw [pad4, if_neg ha, if_neg hb, if_neg hc, repr_data,
          digitsOf_four n (by omega) h]

theorem weekdayAbbrev_shape (w : Nat) (h : w < 7) :
    ∃ a1 a2 a3, (weekdayAbbrev w).data = [a1, a2, a3]
      ∧ a1.isAlpha = true ∧ a2.isAlpha = true ∧ a3.isAlpha = true := by
  interval_cases w
  · exact ⟨'S', 'u', 'n', rfl, by decide, by decide, by decide⟩
  · exact ⟨'M', 'o', 'n', rfl, by decide, by decide, by decide⟩
  · exact ⟨'T', 'u', 'e', rfl, by decide, by decide, by decide⟩
  · exact ⟨'W', 'e', 'd', rfl, by decide, by decide, by decide⟩
  · exact ⟨'T', 'h', 'u', rfl, by decide, by decide, by decide⟩
  · exact ⟨'F', 'r', 'i', rfl, by decide, by decide, by decide⟩
  · exact ⟨'S', 'a', 't', rfl, by decide, by decide, by decide⟩

theorem monthAbbrev_shape (m : Nat) (h1 : 1 ≤ m) (h2 : m ≤ 12) :
    ∃ b1 b2 b3, (monthAbbrev m).data = [b1, b2, b3]
      ∧ b1.isAlpha = true ∧ b2.isAlpha = true ∧ b3.isAlpha = true := by
  interval_cases m
  · exact ⟨'J', 'a', 'n', rfl, by decide, by decide, by decide⟩
  · exact ⟨'F', 'e', 'b', rfl, by decide, by decide, by decide⟩
  · exact ⟨'M', 'a', 'r', rfl, by decide, by decide, by decide⟩
  · exact ⟨'A', 'p', 'r', rfl, by decide, by decide, by decide⟩
  · exact ⟨'M', 'a', 'y', rfl, by decide, by decide, by decide⟩
  · exact ⟨'J', 'u', 'n', rfl, by decide, by decide, by decide⟩
  · exact ⟨'J', 'u', 'l', rfl, by decide, by decide, by decide⟩
  · exact ⟨'A', 'u', 'g', rfl, by decide, by decide, by decide⟩
  · exact ⟨'S', 'e', 'p', rfl, by decide, by decide, by decide⟩
  · exact ⟨'O', 'c', 't', rfl, by decide, by decide, by decide⟩
  · exact ⟨'N', 'o', 'v', rfl, by decide, by decide, by decide⟩
  · exact ⟨'D', 'e', 'c', rfl, by decide, by decide, by decide⟩

/-- C6: for every valid instant, format_timestamp succeeds (it is a total
function) and returns a string matching `%a, %d %b %Y %H:%M:%S` followed by
the literal zone token GMT, and the output does not depend on the UTC offset
of the instant at all. -/
theorem C6_format_timestamp (dt : LocalDateTime) (hw : dt.weekday < 7)
    (hm1 : 1 ≤ dt.month) (hm2 : dt.month ≤ 12) (hd : dt.day ≤ 31)
    (hh : dt.hour ≤ 23) (hmi : dt.minute ≤ 59) (hs : dt.second ≤ 60)
    (hy : dt.year ≤ 9999) :
    isRfc1123GMT (format_date_str dt) = true
    ∧ ∀ o : Int, format_date_str { dt with utcOffsetMinutes := o }
        = format_date_str dt := by
  constructor
  · obtain ⟨a1, a2, a3, hwd, ha1, ha2, ha3⟩ := weekdayAbbrev_shape dt.weekday hw
    obtain ⟨b1, b2, b3, hmo, hb1, hb2, hb3⟩ := monthAbbrev_shape dt.month hm1 hm2
    obtain ⟨d1, d2, hdd, hd1, hd2⟩ := pad2_shape dt.day (by omega)
    obtain ⟨h1, h2, hhd, hh1, hh2⟩ := pad2_shape dt.hour (by omega)
    obtain ⟨m1, m2, hmd, hmm1, hmm2⟩ := pad2_shape dt.minute (by omega)
    obtain ⟨x1, x2, hsd, hx1, hx2⟩ := pad2_shape dt.second (by omega)
    obtain ⟨y1, y2, y3, y4, hyd, hy1, hy2, hy3, hy4⟩ := pad4_shape dt.year (by omega)
    have hdata : (format_date_str dt).data =
        a1 :: a2 :: a3 :: ',' :: ' ' :: d1 :: d2 :: ' ' :: b1 :: b2 :: b3 :: ' '
          :: y1 :: y2 :: y3 :: y4 :: ' ' :: h1 :: h2 :: ':' :: m1 :: m2 :: ':'
          :: x1 :: x2 :: ' ' :: 'G' :: 'M' :: 'T' :: [] := by
      rw [format_date_str]
      simp only [String.data_append, hwd, hmo, hdd, hhd, hmd, hsd, hyd,
        show (", " : String).data = [',', ' '] from rfl,
        show (" " : String).data = [' '] from rfl,
        show (":" : String).data = [':'] from rfl,
        show (" GMT" : String).data = [' ', 'G', 'M', 'T'] from rfl]
      simp
    rw [isRfc1123GMT, hdata]
    simp [ha1, ha2, ha3, hb1, hb2, hb3, hd1, hd2, hh1, hh2, hmm1, hmm2,
      hx1, hx2, hy1, hy2, hy3, hy4]
  · intro o
    rfl

theorem C6_format_timestamp_witness :
    isRfc1123GMT (format_date_str ⟨2023, 1, 2, 3, 4, 5, 1, 0⟩) = true :=
  (C6_format_timestamp ⟨2023, 1, 2, 3, 4, 5, 1, 0⟩ (by decide) (by decide)
    (by decide) (by decide) (by decide) (by decide) (by decide) (by decide)).1

end AzureQueue
